import Mathlib

/-!
Shallow embedding of the retrieval pipeline of the hackrx-bajaj repository
(src/main.py, src/modules/ingest.py, src/modules/search.py,
src/pincone_basics.py), together with theorems checking the
natural-language specification's claims against it.

Python strings are modelled as Lean `String` / `List Char`; Python dicts the
code iterates in insertion order are modelled as association lists; all calls
to external services (HTTP fetch, Pinecone index operations) are modelled by
an explicit `Oracle` of responses, and the vector-store commands the code
issues are recorded in an `Op` trace where a claim needs them.
-/

set_option maxRecDepth 8000

namespace HackRx

/-! ### Python string primitives used by the ingest module -/

/-- The characters Python's `str.strip()` / `str.split()` treat as whitespace. -/
def isPySpace (c : Char) : Bool :=
  c = ' ' || c = '\t' || c = '\n' || c = '\r' || c = '\x0b' || c = '\x0c'

/-- Python `str.strip()` on a character list. -/
def pyStrip (s : List Char) : List Char :=
  ((s.dropWhile isPySpace).reverse.dropWhile isPySpace).reverse

/-- Worker for `pySplit`; `acc` holds the current word reversed. -/
def pySplitGo : List Char → List Char → List (List Char)
  | acc, [] => if acc.isEmpty then [] else [acc.reverse]
  | acc, c :: cs =>
    if isPySpace c then
      if acc.isEmpty then pySplitGo [] cs else acc.reverse :: pySplitGo [] cs
    else
      pySplitGo (c :: acc) cs

/-- Python `str.split()` (no argument): split on whitespace runs, no empty words. -/
def pySplit (s : List Char) : List (List Char) := pySplitGo [] s

/-- Python `" ".join(words)`. -/
def joinSpace : List (List Char) → List Char
  | [] => []
  | [w] => w
  | w :: ws => w ++ ' ' :: joinSpace ws

/-! ### src/modules/ingest.py — intelligent_text_chunking -/

/-- The sentence-splitting loop of `intelligent_text_chunking`
(src/modules/ingest.py lines 79-89): accumulate characters, close a sentence
at `.`/`!`/`?` once more than 20 characters were accumulated, and emit the
stripped remainder at the end when nonempty. -/
def sentLoop : List Char → List Char → List (List Char)
  | cur, [] => if (pyStrip cur).isEmpty then [] else [pyStrip cur]
  | cur, c :: rest =>
    let cur2 := cur ++ [c]
    if (c = '.' || c = '!' || c = '?') && cur2.length > 20 then
      pyStrip cur2 :: sentLoop [] rest
    else
      sentLoop cur2 rest

/-- The sentence units `intelligent_text_chunking` works over. -/
def pySentences (text : List Char) : List (List Char) := sentLoop [] text

/-- The overlap-collection loop (src/modules/ingest.py lines 106-117): walk the
words of the just-closed chunk in reverse, prepending while the running
length (word length + one separator each) stays within `overlap_chars`,
stopping at the first word that does not fit. -/
def overlapGo (overlap_chars : Nat) : List (List Char) → Nat → List (List Char) → List (List Char)
  | [], _, acc => acc
  | w :: ws, ol, acc =>
    if ol + w.length + 1 ≤ overlap_chars then
      overlapGo overlap_chars ws (ol + w.length + 1) (w :: acc)
    else
      acc

/-- The overlap words kept from a closed chunk. -/
def overlapWords (words : List (List Char)) (overlap_chars : Nat) : List (List Char) :=
  overlapGo overlap_chars words.reverse 0 []

/-- Loop state of the chunk-accumulation loop of `intelligent_text_chunking`:
the emitted chunks, the chunk under construction, and the overlap buffer. -/
structure ChunkState where
  chunks : List (List Char)
  current : List Char
  overlap_buffer : List Char

/-- The overlap buffer seeded from a just-closed chunk
(src/modules/ingest.py lines 106-117): `" ".join(overlap_words)` when some
words fit, else the empty string. -/
def newOverlapBuffer (overlap_chars : Nat) (current : List Char) : List Char :=
  let ow := overlapWords (pySplit current) overlap_chars
  if ow.isEmpty then [] else joinSpace ow

/-- One iteration of the chunk-accumulation loop
(src/modules/ingest.py lines 97-119) on one sentence unit. -/
def chunkStep (max_chars overlap_chars : Nat) (st : ChunkState) (s : List Char) : ChunkState :=
  let test := if st.current.isEmpty then s else st.current ++ ' ' :: s
  if test.length ≤ max_chars then
    { st with current := test }
  else
    if st.current.isEmpty then
      { st with current :=
          if st.overlap_buffer.isEmpty then s else st.overlap_buffer ++ ' ' :: s }
    else
      let ob2 := newOverlapBuffer overlap_chars st.current
      { chunks := st.chunks ++ [pyStrip st.current]
        current := if ob2.isEmpty then s else ob2 ++ ' ' :: s
        overlap_buffer := ob2 }

/-- Worker for `dedupFirst`. -/
def dedupGo (seen : List (List Char)) : List (List Char) → List (List Char)
  | [] => []
  | c :: cs => if c ∈ seen then dedupGo seen cs else c :: dedupGo (c :: seen) cs

/-- Python `list(dict.fromkeys(chunks))`: drop duplicates, keeping the first
occurrence of each chunk. -/
def dedupFirst (l : List (List Char)) : List (List Char) := dedupGo [] l

/-- `intelligent_text_chunking` (src/modules/ingest.py lines 73-138) on a
character list: split into sentence units, greedily accumulate them into
chunks of at most `max_tokens * 4` characters, seed each new chunk with up to
`overlap_tokens * 4` characters of trailing words of the closed chunk, then
drop empty chunks and deduplicate keeping first occurrences.  (The retention
ratio computed by the code is only printed and does not affect the result.) -/
def intelligent_text_chunking_core (text : List Char) (max_tokens overlap_tokens : Nat) :
    List (List Char) :=
  let max_chars := max_tokens * 4
  let overlap_chars := overlap_tokens * 4
  let sentences := pySentences text
  let st := sentences.foldl (chunkStep max_chars overlap_chars) ⟨[], [], []⟩
  let chunks := if st.current.isEmpty then st.chunks else st.chunks ++ [pyStrip st.current]
  dedupFirst (chunks.filter (fun c => !(pyStrip c).isEmpty))

/-- `intelligent_text_chunking` on Lean strings. -/
def intelligent_text_chunking (text : String) (max_tokens overlap_tokens : Nat) : List String :=
  (intelligent_text_chunking_core text.data max_tokens overlap_tokens).map List.asString

/-- Length of the longest sentence unit of a text. -/
def maxSentenceLen (text : String) : Nat :=
  ((pySentences text.data).map List.length).foldr max 0

/-! ### External-world model -/

/-- One outbound command issued by the pipeline (HTTP fetch or a Pinecone
index operation).  `sleep` records a `time.sleep` call so retry backoff is
observable. -/
inductive Op where
  | fetch (url : String)
  | listIndexes
  | createIndex
  | describeIndex
  | sleep (seconds : Nat)
  | upsert (ns : String) (ids : List String)
  | statsQuery (nsFilter : Option String)
  | deleteAll (ns : String)
  deriving DecidableEq

/-- A value stored under a key of a Pinecone hit's `fields` dict.  Only the
distinction that matters to the code is kept: strings (with their content)
versus non-string values (`isinstance(field_value, str)` checks). -/
inductive FieldValue where
  | str (s : String)
  | num (n : Int)
  | boolean (b : Bool)
  | null
  deriving DecidableEq

/-- One hit of a Pinecone similarity query, as read by search_with_text:
its optional `_id` and its `fields` dict (an association list in insertion
order, matching Python dict iteration). -/
structure Hit where
  _id : Option String
  fields : List (String × FieldValue)
  deriving DecidableEq

/-- One element of the list `search_with_text` returns:
`{"question": ..., "related_clauses": [...]}`, plus an `"error"` key on the
failure paths (`error = none` models the key being absent). -/
structure SearchResult where
  question : String
  related_clauses : List FieldValue
  error : Option String
  deriving DecidableEq

/-- The environment the pipeline runs against: responses of the HTTP fetch,
of every Pinecone operation, the nondeterministic inputs of
`create_unique_namespace`, and the out-of-scope answer-generation module.
Retry attempts are numbered so eventually-consistent behaviour (different
responses on different attempts) is expressible. -/
structure Oracle where
  /-- `requests.get(url)` + `PdfReader`: either a request/parse error or the
  list of pages, each page either a per-page extraction error or its text. -/
  fetch : String → Except String (List (Except String String))
  /-- The timestamp/uuid/pid/md5-derived value `create_unique_namespace`
  builds from its environment. -/
  freshNamespace : String
  /-- Whether `index_name` is in `pc.list_indexes().names()`. -/
  indexExists : Bool
  /-- Number of not-ready responses of `pc.describe_index` before the
  create-index wait loop sees a ready status. -/
  readyPolls : Nat
  /-- Whether `index.upsert_records` succeeds, per batch number and attempt. -/
  upsertOk : Nat → Nat → Bool
  /-- Whether `future.result(timeout=45)` raises for a batch number. -/
  collectTimeout : Nat → Bool
  /-- `index.describe_index_stats()` per readiness-poll attempt: an error or
  the namespaces dict mapping each namespace to its vector count. -/
  describeStats : Nat → Except String (List (String × Nat))
  /-- `index.search(namespace, query)` per namespace, question, top_k and
  attempt: an error or the hit list. -/
  search : String → String → Nat → Nat → Except String (List Hit)
  /-- The out-of-scope `get_document_answers` collaborator. -/
  decideAnswers : List SearchResult → List String

/-- Python dict lookup on an insertion-ordered association list. -/
def pyDictGet {α : Type} : List (String × α) → String → Option α
  | [], _ => none
  | (k, v) :: rest, key => if k = key then some v else pyDictGet rest key

/-! ### src/modules/search.py — search_with_text -/

/-- Python truthiness of a field value (`if not text_content`). -/
def pyTruthy : FieldValue → Bool
  | .str s => !s.isEmpty
  | .num n => n != 0
  | .boolean b => b
  | .null => false

/-- Truthiness of `text_content`, with `none` modelling Python `None`. -/
def optTruthy : Option FieldValue → Bool
  | none => false
  | some v => pyTruthy v

/-- The prioritized field names of src/modules/search.py line 106. -/
def possible_fields : List String := ["text", "chunk_text", "content", "description", "body"]

/-- The known-field loop (src/modules/search.py lines 108-111): first name of
`possible_fields` present in the dict wins, whatever its value. -/
def knownScanGo (fields : List (String × FieldValue)) : List String → Option FieldValue
  | [] => none
  | fn :: rest =>
    match pyDictGet fields fn with
    | some v => some v
    | none => knownScanGo fields rest

/-- `text_content` after the known-field loop. -/
def knownScan (fields : List (String × FieldValue)) : Option FieldValue :=
  knownScanGo fields possible_fields

/-- The fallback loop (src/modules/search.py lines 114-118): first
string-valued field whose length exceeds 10 characters. -/
def fallbackScan : List (String × FieldValue) → Option FieldValue
  | [] => none
  | (_, v) :: rest =>
    match v with
    | .str s => if s.length > 10 then some (.str s) else fallbackScan rest
    | _ => fallbackScan rest

/-- `text_content` for one hit's fields: the known-field scan, then — when the
result is falsy and the dict is nonempty — the fallback scan, keeping the
known-scan result if the fallback also finds nothing. -/
def textContent (fields : List (String × FieldValue)) : Option FieldValue :=
  let t1 := knownScan fields
  if !optTruthy t1 && !fields.isEmpty then
    match fallbackScan fields with
    | some v => some v
    | none => t1
  else t1

/-- The placeholder string of src/modules/search.py line 125. -/
def placeholderText (hit : Hit) : String :=
  "[No text content - ID: " ++ hit._id.getD "unknown" ++ "]"

/-- The entry appended to `related_clauses` for one hit: the truthy extracted
text content, or the placeholder string. -/
def clauseOfHit (hit : Hit) : FieldValue :=
  match textContent hit.fields with
  | some v => if pyTruthy v then v else .str (placeholderText hit)
  | none => .str (placeholderText hit)

/-- One iteration of the readiness loop (src/modules/search.py lines 40-64):
ready iff `describe_index_stats` succeeds, the namespace is present, and its
vector count is positive; an exception counts as not ready. -/
def attemptReady (o : Oracle) (ns : String) (a : Nat) : Bool :=
  match o.describeStats a with
  | .ok nss =>
    match pyDictGet nss ns with
    | some cnt => decide (0 < cnt)
    | none => false
  | .error _ => false

/-- The readiness loop, counting down the remaining attempts with `a` the
current attempt number. -/
def namespaceReadyGo (o : Oracle) (ns : String) : Nat → Nat → Bool
  | _, 0 => false
  | a, rem + 1 => if attemptReady o ns a then true else namespaceReadyGo o ns (a + 1) rem

/-- `namespace_ready` after the loop of src/modules/search.py lines 39-64. -/
def namespaceReady (o : Oracle) (ns : String) (max_retries : Nat) : Bool :=
  namespaceReadyGo o ns 0 max_retries

/-- The error message of src/modules/search.py line 67. -/
def notReadyMsg (ns : String) (max_retries : Nat) : String :=
  "Namespace '" ++ ns ++ "' not ready after " ++ toString max_retries ++ " attempts"

/-- The per-question retry loop (src/modules/search.py lines 78-142), counting
down the remaining search attempts (3 at the top call; the current attempt
number is `2 - rem`).  Returns the results appended to `final_output` for
this question: an empty hit list is retried while attempts remain, a
successful attempt appends one no-error result, and an exception on the last
attempt appends one error-annotated result. -/
def questionLoop (o : Oracle) (ns : String) (top_k : Nat) (q : String) : Nat → List SearchResult
  | 0 => []
  | rem + 1 =>
    match o.search ns q top_k (2 - rem) with
    | .ok hits =>
      if hits.isEmpty ∧ 0 < rem then questionLoop o ns top_k q rem
      else [⟨q, hits.map clauseOfHit, none⟩]
    | .error e =>
      if 0 < rem then questionLoop o ns top_k q rem
      else [⟨q, [], some e⟩]

/-- `search_with_text` (src/modules/search.py lines 19-145).  The Python
defaults are `top_k = 3`, `max_retries = 5`; `retry_delay` only feeds
`time.sleep` and is omitted.  If the readiness loop never sees a positive
vector count, one error-annotated empty result per question is returned;
otherwise the questions are processed in order, each contributing the results
of its retry loop. -/
def search_with_text (o : Oracle) (questions : List String) (ns : String)
    (top_k max_retries : Nat) : List SearchResult :=
  if namespaceReady o ns max_retries then
    questions.flatMap (fun q => questionLoop o ns top_k q 3)
  else
    questions.map (fun q => ⟨q, [], some (notReadyMsg ns max_retries)⟩)

/-- The spec's fallback extractor, stated from its words for comparison with
the code: the first string-valued field whose length exceeds `n`. -/
def isLongStringField (n : Nat) (p : String × FieldValue) : Bool :=
  match p.2 with
  | .str s => n < s.length
  | _ => false

/-- First string-valued field of the dict longer than `n` characters. -/
def firstLongStringField (n : Nat) (fields : List (String × FieldValue)) : Option FieldValue :=
  (fields.find? (isLongStringField n)).map (fun p => p.2)

/-! ### src/modules/ingest.py — extraction, namespace, upload -/

/-- The page loop of `extract_complete_text_from_pdf`
(src/modules/ingest.py lines 45-57): pages are numbered from 1, a page whose
extraction fails is skipped, a page whose stripped text is empty contributes
nothing, and every other page contributes a page-boundary marker plus its
text. -/
def buildPagesGo : Nat → List (Except String String) → String
  | _, [] => ""
  | n, p :: rest =>
    (match p with
     | .ok t =>
       if (pyStrip t.data).isEmpty then ""
       else "\n--- Page " ++ toString n ++ " ---\n" ++ t ++ "\n"
     | .error _ => "") ++ buildPagesGo (n + 1) rest

/-- `extract_complete_text_from_pdf` (src/modules/ingest.py lines 23-71):
fetch the URL (one `Op.fetch` regardless of outcome), concatenate the page
texts, and fail when the fetch fails or the accumulated text strips to
empty.  Failures re-raise as `"PDF extraction failed: " ++ message`. -/
def extract_complete_text_from_pdf (o : Oracle) (url : String) :
    Except String String × List Op :=
  match o.fetch url with
  | .error e => (.error ("PDF extraction failed: " ++ e), [Op.fetch url])
  | .ok pages =>
    let full_text := buildPagesGo 1 pages
    if (pyStrip full_text.data).isEmpty then
      (.error "PDF extraction failed: No text content found in PDF", [Op.fetch url])
    else
      (.ok full_text, [Op.fetch url])

/-- `create_unique_namespace` (src/modules/ingest.py lines 140-148) builds
`"doc_" ++ timestamp ++ "_" ++ md5-hash-fragment` from the clock, a uuid and
the process id; those environment inputs are modelled by the oracle's
`freshNamespace` value.  Pure generation, no I/O, never fails. -/
def create_unique_namespace (o : Oracle) : String := o.freshNamespace

/-- One record upserted to the vector store (src/modules/ingest.py
lines 189-194): `{"_id": f"{namespace}_chunk_{i:06d}", "text": chunk}`. -/
structure Doc where
  _id : String
  text : String
  deriving DecidableEq

/-- Python `f"{i:06d}"`: decimal text left-padded with zeros to six digits. -/
def pad6 (n : Nat) : String :=
  let s := toString n
  String.mk (List.replicate (6 - s.length) '0') ++ s

/-- The records built for a chunk list (src/modules/ingest.py lines 188-194). -/
def mkDocs (ns : String) (chunks : List String) : List Doc :=
  chunks.enum.map (fun p => ⟨ns ++ "_chunk_" ++ pad6 p.1, p.2⟩)

/-- Worker for `batch_efficiently`: accumulate the current batch (reversed)
and flush it when it reaches the batch size. -/
def batchGo (bs : Nat) : List Doc → List Doc → List (List Doc)
  | cur, [] => if cur.isEmpty then [] else [cur.reverse]
  | cur, x :: xs =>
    let cur2 := x :: cur
    if cur2.length = bs then cur2.reverse :: batchGo bs [] xs
    else batchGo bs cur2 xs

/-- `batch_efficiently` (src/modules/ingest.py lines 150-156), batch size
first: consecutive groups of `batch_size` records, the last possibly
shorter (batch size 0 yields no batches, as Python's `islice(it, 0)` is
empty and breaks the loop at once). -/
def batch_efficiently (batch_size : Nat) (l : List Doc) : List (List Doc) :=
  if batch_size = 0 then [] else batchGo batch_size [] l

/-- The retry loop of `robust_batch_upsert` (src/modules/ingest.py
lines 158-170), counting down `rem` remaining attempts with `a` the current
attempt number and `att` the attempt's outcome: a successful attempt returns
the batch size, the last failed attempt returns 0 (no exception escapes),
and every other failed attempt sleeps `1 * (attempt + 1)` seconds.  Each
attempt issues one upsert command. -/
def robustGo (att : Nat → Bool) (ns : String) (batch : List Doc) :
    Nat → Nat → Nat × List Op
  | _, 0 => (0, [])
  | a, rem + 1 =>
    let op := Op.upsert ns (batch.map (fun d => d._id))
    if att a then (batch.length, [op])
    else if rem = 0 then (0, [op])
    else
      let r := robustGo att ns batch (a + 1) rem
      (r.1, op :: Op.sleep (1 * (a + 1)) :: r.2)

/-- `robust_batch_upsert` with its default `max_retries = 3`. -/
def robust_batch_upsert (att : Nat → Bool) (ns : String) (batch : List Doc) :
    Nat × List Op :=
  robustGo att ns batch 0 3

/-- The fan-out/fan-in of `parallel_upsert_complete` (src/modules/ingest.py
lines 199-218).  Batch results are collected in submission order and each
batch's outcome is independent of its siblings, so the bounded thread pool
collapses to this sequential fold.  Returns
`((uploaded_count, failed_count), trace)`: a batch whose `future.result`
times out adds nothing to `uploaded_count`; otherwise the batch adds its
`robust_batch_upsert` result, counting as failed when that result is 0. -/
def upsertBatchesFold (o : Oracle) (ns : String) : Nat → List (List Doc) → (Nat × Nat) × List Op
  | _, [] => ((0, 0), [])
  | i, b :: bs =>
    let r := robust_batch_upsert (o.upsertOk i) ns b
    let rest := upsertBatchesFold o ns (i + 1) bs
    if o.collectTimeout i then
      ((rest.1.1, rest.1.2 + 1), r.2 ++ rest.2)
    else if 0 < r.1 then
      ((r.1 + rest.1.1, rest.1.2), r.2 ++ rest.2)
    else
      ((rest.1.1, rest.1.2 + 1), r.2 ++ rest.2)

/-- The index-setup commands of `parallel_upsert_complete`
(src/modules/ingest.py lines 175-184): a list-indexes check, then — when the
index is absent — a create followed by ready-polling (each not-ready poll
sleeps 2 seconds). -/
def indexSetupOps (o : Oracle) : List Op :=
  if o.indexExists then [Op.listIndexes]
  else
    [Op.listIndexes, Op.createIndex] ++
      (List.replicate o.readyPolls [Op.describeIndex, Op.sleep 2]).flatten ++
      [Op.describeIndex]

/-- `parallel_upsert_complete` (src/modules/ingest.py lines 172-226): ensure
the index exists, build the records, upsert them in batches of 50, and
return `uploaded_count > 0` (the success-rate computation only prints). -/
def parallel_upsert_complete (o : Oracle) (chunks : List String) (ns : String) :
    Bool × List Op :=
  let docs := mkDocs ns chunks
  let batches := batch_efficiently 50 docs
  let r := upsertBatchesFold o ns 0 batches
  (decide (0 < r.1.1), indexSetupOps o ++ r.2)

/-- The dict `process_and_ingest_complete` returns: on success
`{"namespace": ns, "total_chunks": ..., "total_characters": ...,
"success": True}` and on failure `{"namespace": None, "error": ...,
"success": False}` (`namespaceField` models the `"namespace"` key; the
wall-clock `processing_time` entry is omitted). -/
structure IngestReport where
  namespaceField : Option String
  error : Option String
  total_chunks : Option Nat
  total_characters : Option Nat
  success : Bool
  deriving DecidableEq

/-- `process_and_ingest_complete` (src/modules/ingest.py lines 228-266):
allocate a namespace, extract, chunk with `max_tokens=512, overlap_tokens=50`,
upload, and raise when nothing was uploaded.  Its `try/except` catches every
error and converts it into a failure report, so the result is always `.ok` —
the `Except` in the type records that the operation is the one that could
have propagated an exception but never does. -/
def process_and_ingest_complete (o : Oracle) (pdf_url : String) :
    Except String IngestReport × List Op :=
  let ns := create_unique_namespace o
  match extract_complete_text_from_pdf o pdf_url with
  | (.error e, ops) => (.ok ⟨none, some e, none, none, false⟩, ops)
  | (.ok full_text, ops1) =>
    let chunks := intelligent_text_chunking full_text 512 50
    let r := parallel_upsert_complete o chunks ns
    if r.1 then
      (.ok ⟨some ns, none, some chunks.length, some full_text.length, true⟩, ops1 ++ r.2)
    else
      (.ok ⟨none, some "Upload failed - no content was successfully ingested", none, none, false⟩,
        ops1 ++ r.2)

/-- `process_and_ingest = process_and_ingest_complete` (src/modules/ingest.py
line 268). -/
def process_and_ingest (o : Oracle) (pdf_url : String) :
    Except String IngestReport × List Op :=
  process_and_ingest_complete o pdf_url

/-! ### src/main.py — run_pipeline, and src/pincone_basics.py -/

/-- The bearer token of src/main.py line 25. -/
def AUTHORIZED_TOKEN : String :=
  "d742ec2aaf3cd69400711966ec8db56a156c9f0404f7cce41808e3c6e9ede8c8"

/-- Python `s.startswith(p)`. -/
def pyStartsWith (s p : String) : Bool :=
  p.data.isPrefixOf s.data

/-- Worker for `pySplitOnSpace`; `acc` holds the current piece reversed. -/
def pySplitOnSpaceGo (acc : List Char) : List Char → List (List Char)
  | [] => [acc.reverse]
  | c :: cs =>
    if c = ' ' then acc.reverse :: pySplitOnSpaceGo [] cs
    else pySplitOnSpaceGo (c :: acc) cs

/-- Python `s.split(" ")`: split at every single space, keeping empty pieces. -/
def pySplitOnSpace (s : String) : List String :=
  (pySplitOnSpaceGo [] s.data).map List.asString

/-- The request body of the endpoint. -/
structure HackRxRequest where
  documents : String
  questions : List String
  deriving DecidableEq

/-- A FastAPI `HTTPException(status_code, detail)`. -/
structure HTTPException where
  status_code : Nat
  detail : String
  deriving DecidableEq

/-- `str(e)` of the `TypeError` Python raises when `run_pipeline` calls
`search_with_text(input.questions)`: the signature of
src/modules/search.py line 19 declares `ns` with no default, and src/main.py
line 44 does not supply it. -/
def missingNsMsg : String :=
  "search_with_text() missing 1 required positional argument: 'ns'"

/-- Calling `search_with_text` under Python's calling convention with the
`ns` argument optionally supplied: with no `ns` the call raises a
`TypeError` before the function body runs; otherwise the body runs with the
default `top_k = 3` and `max_retries = 5`. -/
def search_with_text_call (o : Oracle) (questions : List String) (ns : Option String) :
    Except String (List SearchResult) :=
  match ns with
  | none => .error missingNsMsg
  | some n => .ok (search_with_text o questions n 3 5)

/-- `run_pipeline` (src/main.py lines 29-68): check the bearer token, ingest
(the returned report — and with it the allocated namespace — is discarded),
call `search_with_text(input.questions)` (which raises the missing-argument
`TypeError`, turned by the catch-all into an HTTP 500), and otherwise hand
the search output to the out-of-scope decision module.  Returns the
response or the `HTTPException`, together with the trace of outbound
commands performed. -/
def run_pipeline (o : Oracle) (authorization : String) (input : HackRxRequest) :
    Except HTTPException (List String) × List Op :=
  if ¬ pyStartsWith authorization "Bearer " then
    (.error ⟨401, "Invalid or missing authorization token"⟩, [])
  else if ((pySplitOnSpace authorization).getD 1 "") ≠ AUTHORIZED_TOKEN then
    (.error ⟨401, "Invalid or missing authorization token"⟩, [])
  else
    let ingest := process_and_ingest o input.documents
    match search_with_text_call o input.questions none with
    | .error msg => (.error ⟨500, msg⟩, ingest.2)
    | .ok results => (.ok (o.decideAnswers results), ingest.2)

/-- The standalone script src/pincone_basics.py: delete every vector of the
hard-coded namespace `"default"`, then query that namespace's stats.  It is
not called from the pipeline. -/
def pincone_basics_ops : List Op :=
  [Op.deleteAll "default", Op.statsQuery (some "default")]

/-! ### Specification-side functions and concrete test environments -/

/-- Whether an outbound command is a delete-all (the purge primitive). -/
def isDeleteAllOp : Op → Bool
  | Op.deleteAll _ => true
  | _ => false

/-- Whether some of batch `i`'s three upsert attempts succeeds. -/
def batchAttemptsOk (o : Oracle) (i : Nat) : Bool :=
  o.upsertOk i 0 || o.upsertOk i 1 || o.upsertOk i 2

/-- The record count the write achieves, stated independently of the upload
loop: a batch contributes its size exactly when its result collection does
not time out and some of its 3 upsert attempts succeeds. -/
def uploadedSpec (o : Oracle) (ns : String) (chunks : List String) : Nat :=
  ((batch_efficiently 50 (mkDocs ns chunks)).enum.map
    (fun p => if !o.collectTimeout p.1 && batchAttemptsOk o p.1 then p.2.length else 0)).sum

/-- An environment where every external call succeeds: the document has one
page of text, the index exists, every upsert succeeds.  The stats report no
namespaces and every search returns no hits. -/
def baseOracle : Oracle where
  fetch := fun _ => .ok [.ok "This page has enough text to extract for the pipeline to proceed."]
  freshNamespace := "doc_20250101_ab12cd34"
  indexExists := true
  readyPolls := 0
  upsertOk := fun _ _ => true
  collectTimeout := fun _ => false
  describeStats := fun _ => .ok []
  search := fun _ _ _ _ => .ok []
  decideAnswers := fun _ => []

/-- `baseOracle` with a failing document fetch (HTTP 404). -/
def badFetchOracle : Oracle :=
  { baseOracle with fetch := fun _ => .error "404 Client Error" }

/-- An environment whose vector store holds no vectors at all: the stats
dict is empty on every attempt and every query returns no hits. -/
def emptyStoreOracle : Oracle :=
  { baseOracle with describeStats := fun _ => .ok [], search := fun _ _ _ _ => .ok [] }

/-- A hit whose only field is a `"text"` entry. -/
def dupHit : Hit :=
  ⟨some "id1", [("text", FieldValue.str "duplicate passage text here")]⟩

/-- An environment where namespace `"ns1"` is ready and every query returns
the same passage twice (two hits with identical text). -/
def dupOracle : Oracle :=
  { baseOracle with
    describeStats := fun _ => .ok [("ns1", 2)],
    search := fun _ _ _ _ => .ok [dupHit, dupHit] }

/-- A hit carrying no known field name, no long string field, only a number
and a short note. -/
def noTextHit : Hit :=
  ⟨some "hitX", [("meta", FieldValue.num 7), ("note", FieldValue.str "short")]⟩

/-- An environment where namespace `"ns1"` is ready and every query returns
the single hit `noTextHit`. -/
def noTextOracle : Oracle :=
  { baseOracle with
    describeStats := fun _ => .ok [("ns1", 1)],
    search := fun _ _ _ _ => .ok [noTextHit] }

/-- An environment where batch 0's upserts always fail and every other
batch's succeed. -/
def failBatch0Oracle : Oracle :=
  { baseOracle with upsertOk := fun i _ => decide (i ≠ 0) }

/-- Two sentence units of 24 and 25 characters; with `max_tokens = 7`
(28 characters) and `overlap_tokens = 2` (8 characters) the second chunk
becomes overlap seed `"dd ee."` plus the second sentence — 32 characters. -/
def c3Text : String := "aaaaa bbbbb ccccc dd ee. ffffffffff gggggggggg zz."

/-- The fields dict of the C6 counterexample: one unknown field holding a
15-character string. -/
def c6Fields : List (String × FieldValue) :=
  [("foo", FieldValue.str "123456789012345")]

/-- The invariant of the chunk-accumulation loop, with `mc` the character
budget, `oc` the overlap budget and `L` a bound on every sentence unit's
length: every emitted chunk and the chunk under construction stay within
`max mc (oc + L)`, and the overlap buffer is empty or fits (with its
separator) in `oc`. -/
def ChunkInv (mc oc L : Nat) (st : ChunkState) : Prop :=
  (∀ c ∈ st.chunks, c.length ≤ max mc (oc + L))
  ∧ st.current.length ≤ max mc (oc + L)
  ∧ (st.overlap_buffer = [] ∨ st.overlap_buffer.length + 1 ≤ oc)

/-! ### Helper lemmas -/

lemma questionLoop_questions (o : Oracle) (ns : String) (tk : Nat) (q : String) :
    ∀ rem, 0 < rem → (questionLoop o ns tk q rem).map (fun r => r.question) = [q] := by
  intro rem
  induction rem with
  | zero => omega
  | succ r ih =>
    intro _
    unfold questionLoop
    cases hs : o.search ns q tk (2 - r) with
    | ok hits =>
      dsimp only
      split
      · next h => exact ih h.2
      · simp
    | error e =>
      dsimp only
      split
      · next h => exact ih h
      · simp

lemma flatMap_questionLoop (o : Oracle) (ns : String) (tk : Nat) :
    ∀ qs : List String,
      ((qs.flatMap fun q => questionLoop o ns tk q 3).map fun r => r.question) = qs := by
  intro qs
  induction qs with
  | nil => simp
  | cons q qs ih =>
    simp only [List.flatMap_cons, List.map_append, ih,
      questionLoop_questions o ns tk q 3 (by omega)]
    rfl

lemma questionLoop_first_success (o : Oracle) (ns : String) (tk : Nat) (q : String)
    (hits : List Hit) (hq : o.search ns q tk 0 = .ok hits) (hne : hits ≠ []) :
    questionLoop o ns tk q 3 = [⟨q, hits.map clauseOfHit, none⟩] := by
  have h0 : (2 : Nat) - 2 = 0 := rfl
  unfold questionLoop
  rw [h0, hq]
  have hemp : hits.isEmpty = false := by
    cases hits with
    | nil => exact absurd rfl hne
    | cons a l => rfl
  simp [hemp]

lemma pyDictGet_eq_none {α : Type} (fields : List (String × α)) (k : String)
    (h : ∀ p ∈ fields, p.1 ≠ k) : pyDictGet fields k = none := by
  induction fields with
  | nil => rfl
  | cons p rest ih =>
    obtain ⟨k1, v1⟩ := p
    have h1 : k1 ≠ k := h (k1, v1) (by simp)
    simp only [pyDictGet, if_neg h1]
    exact ih (fun p hp => h p (by simp [hp]))

lemma knownScanGo_eq_none (fields : List (String × FieldValue)) :
    ∀ names : List String, (∀ fn ∈ names, pyDictGet fields fn = none) →
      knownScanGo fields names = none := by
  intro names
  induction names with
  | nil => intro _; rfl
  | cons fn rest ih =>
    intro h
    have h1 := h fn (by simp)
    simp only [knownScanGo, h1]
    exact ih (fun g hg => h g (by simp [hg]))

lemma knownScan_eq_none (fields : List (String × FieldValue))
    (hnk : ∀ p ∈ fields, p.1 ∉ possible_fields) : knownScan fields = none := by
  refine knownScanGo_eq_none fields possible_fields (fun fn hfn => ?_)
  refine pyDictGet_eq_none fields fn (fun p hp he => ?_)
  exact hnk p hp (he ▸ hfn)

lemma fallbackScan_eq_firstLong (fields : List (String × FieldValue)) :
    fallbackScan fields = firstLongStringField 10 fields := by
  induction fields with
  | nil => rfl
  | cons p rest ih =>
    obtain ⟨k, v⟩ := p
    cases v with
    | str s =>
      by_cases hl : s.length > 10
      · have hp : isLongStringField 10 (k, FieldValue.str s) = true := by
          simp only [isLongStringField]
          exact decide_eq_true hl
        calc fallbackScan ((k, FieldValue.str s) :: rest)
            = some (FieldValue.str s) := by simp [fallbackScan, if_pos hl]
          _ = firstLongStringField 10 ((k, FieldValue.str s) :: rest) := by
              simp [firstLongStringField, List.find?, hp]
      · have hp : isLongStringField 10 (k, FieldValue.str s) = false := by
          simp only [isLongStringField]
          exact decide_eq_false hl
        calc fallbackScan ((k, FieldValue.str s) :: rest)
            = fallbackScan rest := by simp [fallbackScan, if_neg hl]
          _ = firstLongStringField 10 rest := ih
          _ = firstLongStringField 10 ((k, FieldValue.str s) :: rest) := by
              simp [firstLongStringField, List.find?, hp]
    | num n =>
      calc fallbackScan ((k, FieldValue.num n) :: rest)
          = firstLongStringField 10 rest := ih
        _ = firstLongStringField 10 ((k, FieldValue.num n) :: rest) := by
            simp [firstLongStringField, List.find?, isLongStringField]
    | boolean b =>
      calc fallbackScan ((k, FieldValue.boolean b) :: rest)
          = firstLongStringField 10 rest := ih
        _ = firstLongStringField 10 ((k, FieldValue.boolean b) :: rest) := by
            simp [firstLongStringField, List.find?, isLongStringField]
    | null =>
      calc fallbackScan ((k, FieldValue.null) :: rest)
          = firstLongStringField 10 rest := ih
        _ = firstLongStringField 10 ((k, FieldValue.null) :: rest) := by
            simp [firstLongStringField, List.find?, isLongStringField]

lemma fallbackScan_eq_none (fields : List (String × FieldValue))
    (hshort : ∀ p ∈ fields, isLongStringField 10 p = false) : fallbackScan fields = none := by
  induction fields with
  | nil => rfl
  | cons p rest ih =>
    obtain ⟨k, v⟩ := p
    have hrest := ih (fun p hp => hshort p (by simp [hp]))
    cases v with
    | str s =>
      have h1 : ¬ s.length > 10 := by
        have := hshort (k, FieldValue.str s) (by simp)
        simp [isLongStringField] at this
        omega
      simp [fallbackScan, if_neg h1, hrest]
    | num n => simp [fallbackScan, hrest]
    | boolean b => simp [fallbackScan, hrest]
    | null => simp [fallbackScan, hrest]

lemma textContent_eq_none (fields : List (String × FieldValue))
    (hnk : ∀ p ∈ fields, p.1 ∉ possible_fields)
    (hshort : ∀ p ∈ fields, isLongStringField 10 p = false) :
    textContent fields = none := by
  have h1 := knownScan_eq_none fields hnk
  have h2 := fallbackScan_eq_none fields hshort
  cases fields with
  | nil => rfl
  | cons p rest => simp [textContent, h1, h2, optTruthy]

lemma readyGo_false (o : Oracle) (ns : String) :
    ∀ (rem a0 : Nat), (∀ k, k < rem → attemptReady o ns (a0 + k) = false) →
      namespaceReadyGo o ns a0 rem = false := by
  intro rem
  induction rem with
  | zero => intro a0 _; rfl
  | succ r ih =>
    intro a0 h
    have h0 : attemptReady o ns a0 = false := by
      have := h 0 (by omega)
      simpa using this
    simp only [namespaceReadyGo, h0, Bool.false_eq_true, if_false]
    refine ih (a0 + 1) (fun k hk => ?_)
    have := h (k + 1) (by omega)
    have harr : a0 + (k + 1) = a0 + 1 + k := by omega
    rwa [harr] at this

lemma robust_fst_batch (o : Oracle) (ns : String) (b : List Doc) (i : Nat) :
    (robust_batch_upsert (o.upsertOk i) ns b).1 =
      if batchAttemptsOk o i then b.length else 0 := by
  cases h0 : o.upsertOk i 0 <;> cases h1 : o.upsertOk i 1 <;> cases h2 : o.upsertOk i 2 <;>
    simp [robust_batch_upsert, robustGo, batchAttemptsOk, h0, h1, h2]

lemma uploadedFold_eq (o : Oracle) (ns : String) :
    ∀ (bs : List (List Doc)) (i : Nat),
      (upsertBatchesFold o ns i bs).1.1 =
        ((bs.enumFrom i).map
          (fun p => if !o.collectTimeout p.1 && batchAttemptsOk o p.1 then p.2.length
                    else 0)).sum := by
  intro bs
  induction bs with
  | nil => intro i; simp [upsertBatchesFold]
  | cons b rest ih =>
    intro i
    have hrb := robust_fst_batch o ns b i
    cases ht : o.collectTimeout i with
    | true =>
      simp [upsertBatchesFold, ht, ih (i + 1), List.enumFrom_cons]
    | false =>
      cases ha : batchAttemptsOk o i with
      | false =>
        have h1 : ¬ 0 < (robust_batch_upsert (o.upsertOk i) ns b).1 := by
          rw [hrb, ha]
          simp
        simp [upsertBatchesFold, ht, h1, ih (i + 1), List.enumFrom_cons, ha]
      | true =>
        rcases Nat.eq_zero_or_pos b.length with hb | hb
        · have h1 : ¬ 0 < (robust_batch_upsert (o.upsertOk i) ns b).1 := by
            rw [hrb, ha, if_pos rfl, hb]
            omega
          simp [upsertBatchesFold, ht, h1, ih (i + 1), List.enumFrom_cons, ha, hb]
        · have h1 : 0 < (robust_batch_upsert (o.upsertOk i) ns b).1 := by
            rw [hrb, ha, if_pos rfl]
            exact hb
          simp [upsertBatchesFold, ht, h1, ih (i + 1), List.enumFrom_cons, ha, hrb, hb]

lemma length_pyStrip_le (s : List Char) : (pyStrip s).length ≤ s.length := by
  unfold pyStrip
  rw [List.length_reverse]
  calc ((s.dropWhile isPySpace).reverse.dropWhile isPySpace).length
      ≤ (s.dropWhile isPySpace).reverse.length :=
        List.IsSuffix.length_le (List.dropWhile_suffix isPySpace)
    _ = (s.dropWhile isPySpace).length := List.length_reverse _
    _ ≤ s.length := List.IsSuffix.length_le (List.dropWhile_suffix isPySpace)

lemma joinSpace_cons_ne (w : List Char) (acc : List (List Char)) (h : acc ≠ []) :
    joinSpace (w :: acc) = w ++ ' ' :: joinSpace acc := by
  cases acc with
  | nil => exact absurd rfl h
  | cons b l => rfl

lemma overlapGo_spec (oc : Nat) :
    ∀ (ws : List (List Char)) (ol : Nat) (acc : List (List Char)),
      ((acc = [] ∧ ol = 0) ∨ (acc ≠ [] ∧ (joinSpace acc).length + 1 = ol ∧ ol ≤ oc)) →
      (overlapGo oc ws ol acc = [] ∨
        (joinSpace (overlapGo oc ws ol acc)).length + 1 ≤ oc) := by
  intro ws
  induction ws with
  | nil =>
    intro ol acc h
    rcases h with ⟨ha, _⟩ | ⟨_, he, hle⟩
    · exact Or.inl ha
    · exact Or.inr (by rw [overlapGo]; omega)
  | cons w ws ih =>
    intro ol acc h
    by_cases hc : ol + w.length + 1 ≤ oc
    · rw [overlapGo, if_pos hc]
      refine ih (ol + w.length + 1) (w :: acc) (Or.inr ⟨by simp, ?_, hc⟩)
      rcases h with ⟨ha, ho⟩ | ⟨hne, he, _⟩
      · subst ha
        subst ho
        simp [joinSpace]
      · rw [joinSpace_cons_ne w acc hne]
        simp only [List.length_append, List.length_cons]
        omega
    · rw [overlapGo, if_neg hc]
      rcases h with ⟨ha, _⟩ | ⟨_, he, hle⟩
      · exact Or.inl ha
      · exact Or.inr (by omega)

lemma overlapWords_ok (words : List (List Char)) (oc : Nat) :
    overlapWords words oc = [] ∨ (joinSpace (overlapWords words oc)).length + 1 ≤ oc :=
  overlapGo_spec oc words.reverse 0 [] (Or.inl ⟨rfl, rfl⟩)

lemma newOverlapBuffer_ok (oc : Nat) (current : List Char) :
    newOverlapBuffer oc current = [] ∨ (newOverlapBuffer oc current).length + 1 ≤ oc := by
  unfold newOverlapBuffer
  by_cases howe : (overlapWords (pySplit current) oc).isEmpty
  · exact Or.inl (by simp [howe])
  · rcases overlapWords_ok (pySplit current) oc with h | h
    · exact absurd (by simp [h]) howe
    · exact Or.inr (by simpa [howe] using h)

lemma chunkStep_inv (mc oc L : Nat) (st : ChunkState) (s : List Char)
    (hs : s.length ≤ L) (h : ChunkInv mc oc L st) :
    ChunkInv mc oc L (chunkStep mc oc st s) := by
  obtain ⟨hchunks, hcur, hob⟩ := h
  unfold chunkStep
  by_cases ht : (if st.current.isEmpty then s else st.current ++ ' ' :: s).length ≤ mc
  · rw [if_pos ht]
    exact ⟨hchunks, le_trans ht (le_max_left _ _), hob⟩
  · rw [if_neg ht]
    by_cases hce : st.current.isEmpty
    · rw [if_pos hce]
      refine ⟨hchunks, ?_, hob⟩
      by_cases hoe : st.overlap_buffer.isEmpty
      · rw [if_pos hoe]
        exact le_trans (le_trans hs (Nat.le_add_left L oc)) (le_max_right mc (oc + L))
      · rw [if_neg hoe]
        rcases hob with hob | hob
        · exact absurd (by simp [hob]) hoe
        · refine le_trans ?_ (le_max_right mc (oc + L))
          simp only [List.length_append, List.length_cons]
          omega
    · rw [if_neg hce]
      dsimp only
      have hob2 := newOverlapBuffer_ok oc st.current
      refine ⟨?_, ?_, hob2⟩
      · intro c hc
        rcases List.mem_append.mp hc with hc | hc
        · exact hchunks c hc
        · rw [List.mem_singleton.mp hc]
          exact le_trans (length_pyStrip_le _) hcur
      · by_cases hoe2 : (newOverlapBuffer oc st.current).isEmpty
        · rw [if_pos hoe2]
          exact le_trans (le_trans hs (Nat.le_add_left L oc)) (le_max_right mc (oc + L))
        · rw [if_neg hoe2]
          rcases hob2 with hob2 | hob2
          · exact absurd (by simp [hob2]) hoe2
          · refine le_trans ?_ (le_max_right mc (oc + L))
            simp only [List.length_append, List.length_cons]
            omega

lemma chunkFold_inv (mc oc L : Nat) :
    ∀ (ss : List (List Char)) (st : ChunkState), (∀ s ∈ ss, s.length ≤ L) →
      ChunkInv mc oc L st → ChunkInv mc oc L (ss.foldl (chunkStep mc oc) st) := by
  intro ss
  induction ss with
  | nil => intro st _ h; exact h
  | cons s ss ih =>
    intro st hs h
    rw [List.foldl_cons]
    exact ih _ (fun x hx => hs x (by simp [hx])) (chunkStep_inv mc oc L st s (hs s (by simp)) h)

lemma mem_dedupGo (c : List Char) :
    ∀ (l seen : List (List Char)), c ∈ dedupGo seen l → c ∈ l := by
  intro l
  induction l with
  | nil => intro seen h; exact absurd h (by simp [dedupGo])
  | cons a l ih =>
    intro seen h
    unfold dedupGo at h
    by_cases ha : a ∈ seen
    · rw [if_pos ha] at h
      exact List.mem_cons_of_mem a (ih seen h)
    · rw [if_neg ha] at h
      rcases List.mem_cons.mp h with rfl | h
      · exact List.mem_cons_self _ _
      · exact List.mem_cons_of_mem a (ih _ h)

lemma le_foldr_max (l : List Nat) : ∀ x ∈ l, x ≤ l.foldr max 0 := by
  induction l with
  | nil => simp
  | cons a l ih =>
    intro x hx
    rcases List.mem_cons.mp hx with rfl | hx
    · exact le_max_left _ _
    · exact le_trans (ih x hx) (le_max_right _ _)

lemma extract_ops (o : Oracle) (url : String) :
    (extract_complete_text_from_pdf o url).2 = [Op.fetch url] := by
  unfold extract_complete_text_from_pdf
  cases o.fetch url with
  | error e => rfl
  | ok pages =>
    dsimp only
    split <;> rfl

lemma robustGo_no_delete (att : Nat → Bool) (ns : String) (b : List Doc) :
    ∀ rem a, ((robustGo att ns b a rem).2.any isDeleteAllOp) = false := by
  intro rem
  induction rem with
  | zero => intro a; rfl
  | succ r ih =>
    intro a
    unfold robustGo
    cases ha : att a with
    | true => simp [isDeleteAllOp]
    | false =>
      cases r with
      | zero => simp [isDeleteAllOp]
      | succ r2 => simp [isDeleteAllOp, ih]

lemma upsertFold_no_delete (o : Oracle) (ns : String) :
    ∀ (bs : List (List Doc)) (i : Nat),
      ((upsertBatchesFold o ns i bs).2.any isDeleteAllOp) = false := by
  intro bs
  induction bs with
  | nil => intro i; rfl
  | cons b rest ih =>
    intro i
    have hr : ((robust_batch_upsert (o.upsertOk i) ns b).2.any isDeleteAllOp) = false :=
      robustGo_no_delete (o.upsertOk i) ns b 3 0
    unfold upsertBatchesFold
    dsimp only
    split
    · simp [List.any_append, hr, ih (i + 1)]
    · split <;> simp [List.any_append, hr, ih (i + 1)]

lemma replicate_polls_no_delete :
    ∀ n, (((List.replicate n [Op.describeIndex, Op.sleep 2]).flatten).any isDeleteAllOp)
      = false := by
  intro n
  induction n with
  | zero => rfl
  | succ m ih =>
    rw [List.replicate_succ, List.flatten_cons, List.any_append, ih]
    rfl

lemma indexSetupOps_no_delete (o : Oracle) :
    ((indexSetupOps o).any isDeleteAllOp) = false := by
  unfold indexSetupOps
  split
  · rfl
  · simp only [List.any_append, replicate_polls_no_delete]
    rfl

lemma ingest_ops_no_delete (o : Oracle) (url : String) :
    ((process_and_ingest_complete o url).2.any isDeleteAllOp) = false := by
  unfold process_and_ingest_complete
  rcases hx : extract_complete_text_from_pdf o url with ⟨res, ops⟩
  have hops : ops = [Op.fetch url] := by
    have h1 := extract_ops o url
    rw [hx] at h1
    exact h1
  subst hops
  cases res with
  | error e => simp [isDeleteAllOp]
  | ok full_text =>
    dsimp only
    split <;>
      simp [parallel_upsert_complete, List.any_append, indexSetupOps_no_delete,
        upsertFold_no_delete, isDeleteAllOp]

/-! ### Claim C1 — the namespace contract between ingestion and search -/

/-- C1: the claim says the namespace produced by ingestion is passed into
and used by `search_with_text`; in the code, `run_pipeline` discards the
ingestion report (which carries the namespace) and calls
`search_with_text(input.questions)` without the required `ns` argument, so
even on a request whose ingestion fully succeeds and returns a namespace,
the pipeline fails with the missing-argument `TypeError` as an HTTP 500 and
the ingestion namespace is never used by search. -/
theorem c1_namespace_never_reaches_search :
    (run_pipeline baseOracle ("Bearer " ++ AUTHORIZED_TOKEN)
        ⟨"http://x/doc.pdf", ["What is covered?"]⟩).1 =
      .error ⟨500, missingNsMsg⟩
    ∧ ((process_and_ingest baseOracle "http://x/doc.pdf").1.map
        (fun r => (r.namespaceField, r.success))) =
      .ok (some "doc_20250101_ab12cd34", true) := by
  constructor <;> rfl

/-! ### Claim C2 — fetch/extraction failures and the caller -/

/-- C2 counterexample: on a failing document fetch,
`process_and_ingest_complete` does not propagate any error to its caller —
it returns normally (an `.ok` value) carrying a failure report with
`namespace = None` and `success = False`. -/
theorem c2_counterexample_returns_normally :
    (process_and_ingest_complete badFetchOracle "http://x/doc.pdf").1 =
      .ok ⟨none, some "PDF extraction failed: 404 Client Error", none, none, false⟩ := by
  rfl

/-! ### Claim C3 — chunk size bound -/

/-- C3 counterexample: at `max_tokens = 7`, `overlap_tokens = 2`, every
sentence unit of `c3Text` has estimated size at most `max_tokens`, yet
`intelligent_text_chunking` emits a chunk (overlap seed plus one sentence)
whose estimated size exceeds `max_tokens` — so the oversized chunk is not a
single sentence unit whose own size exceeds the bound. -/
theorem c3_counterexample_overlap_overflow :
    (∀ s ∈ pySentences c3Text.data, s.length / 4 ≤ 7)
    ∧ ∃ c ∈ intelligent_text_chunking c3Text 7 2, ¬ c.length / 4 ≤ 7 := by
  decide

/-- C3 amended: every chunk's character count is bounded by
`max (max_tokens * 4) (overlap_tokens * 4 + L)` with `L` the longest
sentence unit's length: a chunk exceeds the `max_tokens * 4` budget only
when it is a single sentence unit, possibly preceded by an overlap seed of
less than `overlap_tokens * 4` characters, that already overflows the
budget; such a chunk is emitted whole. -/
theorem c3_amended_chunk_length_bound (text : String) (max_tokens overlap_tokens : Nat) :
    (intelligent_text_chunking text max_tokens overlap_tokens).all
      (fun c => c.length ≤ max (max_tokens * 4) (overlap_tokens * 4 + maxSentenceLen text))
      = true := by
  rw [List.all_eq_true]
  intro c hc
  rcases List.mem_map.mp hc with ⟨c0, hc0, rfl⟩
  simp only [decide_eq_true_eq]
  have hlen : (List.asString c0).length = c0.length := rfl
  rw [hlen]
  have hsent : ∀ s ∈ pySentences text.data, s.length ≤ maxSentenceLen text := by
    intro s hs
    exact le_foldr_max _ _ (List.mem_map_of_mem List.length hs)
  have hinv := chunkFold_inv (max_tokens * 4) (overlap_tokens * 4) (maxSentenceLen text)
    (pySentences text.data) ⟨[], [], []⟩ hsent ⟨by simp, by simp, Or.inl rfl⟩
  obtain ⟨hchunks, hcur, -⟩ := hinv
  unfold intelligent_text_chunking_core at hc0
  dsimp only at hc0
  unfold dedupFirst at hc0
  have hc1 := mem_dedupGo c0 _ [] hc0
  have hc2 := (List.mem_filter.mp hc1).1
  split at hc2
  · exact hchunks c0 hc2
  · rcases List.mem_append.mp hc2 with hc3 | hc3
    · exact hchunks c0 hc3
    · rw [List.mem_singleton.mp hc3]
      exact le_trans (length_pyStrip_le _) hcur

/-! ### Claim C6 — the fallback field extractor -/

/-- C6 counterexample: a hit payload with no known field name and a single
15-character string field.  The claim's extractor ("first string-valued
field whose length exceeds 20 characters") finds nothing here, but the code
extracts the 15-character string: the code's threshold is 10, not 20. -/
theorem c6_counterexample_threshold_is_not_20 :
    textContent c6Fields = some (FieldValue.str "123456789012345")
    ∧ firstLongStringField 20 c6Fields = none := by
  constructor <;> rfl

/-! ### Claim C7 — empty namespace -/

/-- C7 counterexample: against a vector store holding no vectors, the
readiness loop of `search_with_text` never sees a positive count, and every
question's result carries a namespace-not-ready error annotation — an empty
namespace is not reported as an errorless empty result. -/
theorem c7_counterexample_empty_namespace_is_error :
    search_with_text emptyStoreOracle ["q1"] "doc_ns" 3 5 =
      [⟨"q1", [], some "Namespace 'doc_ns' not ready after 5 attempts"⟩]
    ∧ ∀ r ∈ search_with_text emptyStoreOracle ["q1"] "doc_ns" 3 5, r.error ≠ none := by
  decide

/-! ### Claim C8 — purge after retrieval -/

/-- C8 counterexample: on a concrete request whose ingestion succeeds, the
trace of outbound commands `run_pipeline` performs contains no delete-all —
the pipeline never purges the namespace. -/
theorem c8_counterexample_no_purge_in_pipeline :
    ((run_pipeline baseOracle ("Bearer " ++ AUTHORIZED_TOKEN)
        ⟨"http://x/doc.pdf", ["q1"]⟩).2.any isDeleteAllOp) = false := by
  rfl

/-- C8 amended: the pipeline never purges — for every request and every
environment, no delete-all command appears in `run_pipeline`'s trace; the
only delete-all in the repository is the standalone script
src/pincone_basics.py, and it targets the hard-coded namespace
`"default"`, not a request's namespace. -/
theorem c8_amended_no_purge_anywhere (o : Oracle) (authorization : String)
    (input : HackRxRequest) :
    ((run_pipeline o authorization input).2.any isDeleteAllOp) = false
    ∧ pincone_basics_ops.filter isDeleteAllOp = [Op.deleteAll "default"] := by
  constructor
  · unfold run_pipeline
    split
    · rfl
    · split
      · rfl
      · exact ingest_ops_no_delete o input.documents
  · rfl

/-! ### Claim C9 — deduplication of passages -/

/-- C9 counterexample: when a query returns the same passage in two hits,
the question's `related_clauses` holds that passage twice — the code never
deduplicates within one question's result. -/
theorem c9_counterexample_duplicates_kept :
    ∃ r ∈ search_with_text dupOracle ["q"] "ns1" 3 5, ¬ r.related_clauses.Nodup := by
  decide

/-- C2 amended: when extraction fails (fetch error or no extractable text),
`process_and_ingest_complete` catches the error and returns normally a
failure report (`namespace = None`, `success = False`, the error message);
and the pipeline driver, which ignores that report, proceeds to the search
phase, where the request fails with the unrelated missing-argument
`TypeError` (HTTP 500) rather than with the ingestion error. -/
theorem c2_amended_failure_report (o : Oracle) (url e : String) (qs : List String)
    (he : (extract_complete_text_from_pdf o url).1 = .error e) :
    (process_and_ingest_complete o url).1 = .ok ⟨none, some e, none, none, false⟩
    ∧ (run_pipeline o ("Bearer " ++ AUTHORIZED_TOKEN) ⟨url, qs⟩).1 =
        .error ⟨500, missingNsMsg⟩ := by
  constructor
  · rcases hp : extract_complete_text_from_pdf o url with ⟨res, ops⟩
    rw [hp] at he
    simp only at he
    subst he
    simp [process_and_ingest_complete, hp]
  · rfl

/-- Witness for `c2_amended_failure_report` at the failing-fetch environment. -/
theorem c2_amended_witness :
    (process_and_ingest_complete badFetchOracle "http://x/doc.pdf").1 =
      .ok ⟨none, some "PDF extraction failed: 404 Client Error", none, none, false⟩
    ∧ (run_pipeline badFetchOracle ("Bearer " ++ AUTHORIZED_TOKEN)
        ⟨"http://x/doc.pdf", ["q1"]⟩).1 = .error ⟨500, missingNsMsg⟩ :=
  c2_amended_failure_report badFetchOracle "http://x/doc.pdf"
    "PDF extraction failed: 404 Client Error" ["q1"] rfl

/-! ### Claim C4 — one result per question, input order -/

/-- C4: for every list of questions and every namespace, `search_with_text`
returns exactly one result per input question, whose order matches the input
order — on the not-ready path, on per-question error paths, and on
empty-hit retry paths alike. -/
theorem c4_one_result_per_question_in_input_order (o : Oracle) (qs : List String)
    (ns : String) (top_k max_retries : Nat) :
    (search_with_text o qs ns top_k max_retries).map (fun r => r.question) = qs := by
  unfold search_with_text
  split
  · exact flatMap_questionLoop o ns top_k qs
  · rw [List.map_map]
    exact List.map_id qs

/-! ### Claim C5 — per-batch retry, containment, success criterion -/

/-- C5: a batch whose three upsert attempts all fail is recorded as 0
uploaded records without raising, its trace being the three upsert attempts
separated by the increasing sleeps 1s and 2s; and the overall write reports
success exactly when at least one record was uploaded
(`uploadedSpec` counts each batch's records independently of its sibling
batches, so one batch's total failure never affects the others). -/
theorem c5_failed_batch_contained_and_success_iff (o : Oracle) (chunks : List String)
    (ns ns2 : String) (i : Nat) (b : List Doc)
    (hfail : ∀ a, a < 3 → o.upsertOk i a = false) :
    robust_batch_upsert (o.upsertOk i) ns2 b =
      (0, [Op.upsert ns2 (b.map fun d => d._id), Op.sleep 1,
           Op.upsert ns2 (b.map fun d => d._id), Op.sleep 2,
           Op.upsert ns2 (b.map fun d => d._id)])
    ∧ (parallel_upsert_complete o chunks ns).1 =
        decide (0 < uploadedSpec o ns chunks) := by
  constructor
  · have h0 := hfail 0 (by omega)
    have h1 := hfail 1 (by omega)
    have h2 := hfail 2 (by omega)
    simp [robust_batch_upsert, robustGo, h0, h1, h2]
  · simp only [parallel_upsert_complete, uploadedSpec]
    rw [uploadedFold_eq]
    rfl

/-- Witness for `c5_failed_batch_contained_and_success_iff`: batch 0 of
`failBatch0Oracle` fails all three attempts. -/
theorem c5_witness :
    robust_batch_upsert (failBatch0Oracle.upsertOk 0) "nsW" [⟨"d1", "t1"⟩] =
      (0, [Op.upsert "nsW" ["d1"], Op.sleep 1, Op.upsert "nsW" ["d1"], Op.sleep 2,
           Op.upsert "nsW" ["d1"]])
    ∧ (parallel_upsert_complete failBatch0Oracle ["alpha chunk text"] "nsW").1 =
        decide (0 < uploadedSpec failBatch0Oracle "nsW" ["alpha chunk text"]) :=
  c5_failed_batch_contained_and_success_iff failBatch0Oracle ["alpha chunk text"]
    "nsW" "nsW" 0 [⟨"d1", "t1"⟩] (by decide)

/-- C6 amended: for a hit payload containing none of the known field names,
the code extracts the first string-valued field whose length exceeds 10
characters (not 20), and nothing when there is no such field. -/
theorem c6_amended_threshold_10 (fields : List (String × FieldValue))
    (hnk : ∀ p ∈ fields, p.1 ∉ possible_fields) :
    textContent fields = firstLongStringField 10 fields := by
  have h1 := knownScan_eq_none fields hnk
  cases fields with
  | nil => rfl
  | cons p rest =>
    rw [← fallbackScan_eq_firstLong]
    cases h2 : fallbackScan (p :: rest) with
    | none => simp [textContent, h1, h2, optTruthy]
    | some v => simp [textContent, h1, h2, optTruthy]

/-- Witness for `c6_amended_threshold_10` at the 15-character unknown field. -/
theorem c6_amended_witness :
    textContent c6Fields = firstLongStringField 10 c6Fields :=
  c6_amended_threshold_10 c6Fields (by decide)

/-- C7 amended: when no readiness attempt ever reports a positive vector
count for the namespace (in particular against a namespace holding no
vectors), every question's result has empty `related_clauses` and carries
the namespace-not-ready error annotation. -/
theorem c7_amended_not_ready_error (o : Oracle) (qs : List String) (ns : String)
    (top_k max_retries : Nat)
    (h : ∀ a, a < max_retries → attemptReady o ns a = false) :
    search_with_text o qs ns top_k max_retries =
      qs.map (fun q => ⟨q, [], some (notReadyMsg ns max_retries)⟩) := by
  have hready : namespaceReady o ns max_retries = false := by
    refine readyGo_false o ns max_retries 0 (fun k hk => ?_)
    simpa using h k hk
  unfold search_with_text
  rw [hready]
  simp

/-- Witness for `c7_amended_not_ready_error` at the empty vector store. -/
theorem c7_amended_witness :
    search_with_text emptyStoreOracle ["q1"] "doc_x" 3 2 =
      [⟨"q1", [], some (notReadyMsg "doc_x" 2)⟩] :=
  c7_amended_not_ready_error emptyStoreOracle ["q1"] "doc_x" 3 2 (by decide)

/-- C9 amended: `related_clauses` holds one extracted entry per hit, in hit
order, with identical passages not collapsed: a question whose first search
attempt returns the hit list `hits` gets the result
`⟨q, hits.map clauseOfHit, none⟩`. -/
theorem c9_amended_one_clause_per_hit (o : Oracle) (qs : List String) (ns : String)
    (top_k max_retries : Nat) (q : String) (hits : List Hit)
    (hready : namespaceReady o ns max_retries = true)
    (hq : o.search ns q top_k 0 = .ok hits) (hne : hits ≠ []) (hmem : q ∈ qs) :
    (⟨q, hits.map clauseOfHit, none⟩ : SearchResult) ∈
      search_with_text o qs ns top_k max_retries := by
  unfold search_with_text
  rw [if_pos hready]
  refine List.mem_flatMap.mpr ⟨q, hmem, ?_⟩
  rw [questionLoop_first_success o ns top_k q hits hq hne]
  simp

/-- Witness for `c9_amended_one_clause_per_hit` at the duplicate-hit
environment. -/
theorem c9_amended_witness :
    (⟨"q", [dupHit, dupHit].map clauseOfHit, none⟩ : SearchResult) ∈
      search_with_text dupOracle ["q"] "ns1" 3 5 :=
  c9_amended_one_clause_per_hit dupOracle ["q"] "ns1" 3 5 "q" [dupHit, dupHit]
    (by decide) rfl (by decide) (by decide)

/-! ### Claim C10 — placeholder for unextractable hits -/

/-- C10: a hit with no known field name and no string field passing the
length fallback contributes the placeholder
`"[No text content - ID: <id>]"` to the question's `related_clauses`
instead of being skipped — so candidate lists can contain non-document
placeholder strings. -/
theorem c10_placeholder_for_unextractable_hit (o : Oracle) (ns : String)
    (top_k max_retries : Nat) (q : String) (hits : List Hit) (hit : Hit)
    (hready : namespaceReady o ns max_retries = true)
    (hq : o.search ns q top_k 0 = .ok hits) (hne : hits ≠ []) (hhit : hit ∈ hits)
    (hnk : ∀ p ∈ hit.fields, p.1 ∉ possible_fields)
    (hshort : ∀ p ∈ hit.fields, isLongStringField 10 p = false) :
    clauseOfHit hit =
      FieldValue.str ("[No text content - ID: " ++ hit._id.getD "unknown" ++ "]")
    ∧ ∃ r ∈ search_with_text o [q] ns top_k max_retries,
        r.question = q ∧
          FieldValue.str ("[No text content - ID: " ++ hit._id.getD "unknown" ++ "]")
            ∈ r.related_clauses := by
  have hclause : clauseOfHit hit = FieldValue.str (placeholderText hit) := by
    unfold clauseOfHit
    rw [textContent_eq_none hit.fields hnk hshort]
  constructor
  · exact hclause
  · refine ⟨⟨q, hits.map clauseOfHit, none⟩, ?_, rfl, ?_⟩
    · unfold search_with_text
      rw [if_pos hready]
      refine List.mem_flatMap.mpr ⟨q, by simp, ?_⟩
      rw [questionLoop_first_success o ns top_k q hits hq hne]
      simp
    · have h2 : FieldValue.str ("[No text content - ID: " ++ hit._id.getD "unknown" ++ "]")
          = clauseOfHit hit := hclause.symm
      rw [h2]
      exact List.mem_map_of_mem clauseOfHit hhit

/-- Witness for `c10_placeholder_for_unextractable_hit` at `noTextHit`. -/
theorem c10_witness :
    clauseOfHit noTextHit =
      FieldValue.str ("[No text content - ID: " ++ noTextHit._id.getD "unknown" ++ "]")
    ∧ ∃ r ∈ search_with_text noTextOracle ["q2"] "ns1" 3 5,
        r.question = "q2" ∧
          FieldValue.str ("[No text content - ID: " ++ noTextHit._id.getD "unknown" ++ "]")
            ∈ r.related_clauses :=
  c10_placeholder_for_unextractable_hit noTextOracle "ns1" 3 5 "q2" [noTextHit] noTextHit
    (by decide) rfl (by decide) (by decide) (by decide) (by decide)

end HackRx
